import Mathlib

/-!
Verification of the lamplighter presence manager (scan variant,
`lamplighter.py`) and its heartbeat-based successor (`heartbeat.py`).

The Python code is shallowly embedded: external scan invocations become a
stream `scans : Nat → Option Nat` consumed at a cursor (`none` models the
Python `False` returned on a non-zero exit status of nmap/arp-scan, `some n`
a genuine device count); side effects (sleeps, state-file writes, callbacks)
are recorded in an event trace; the sqlite tables become lists of rows; the
wall clock becomes an explicit parameter.
-/

namespace Lamplighter

/-- The two presence states persisted in the state file. -/
inductive PState where
  | home
  | away
deriving DecidableEq, Repr

/-- Observable effects of one `search` invocation: `time.sleep` calls,
`save_state` writes and the `on_away` / `on_home` callbacks (with their
quiet-hours flag). -/
inductive Ev where
  | sleep (secs : Nat)
  | save (s : PState)
  | onAway (quiet : Bool)
  | onHome (quiet : Bool)
deriving DecidableEq, Repr

/-- `count_devices_present(confirm_with_arp)`: run nmap (consume one stream
element); on a genuine zero with `confirm_with_arp` set, sleep one second and
run arp-scan (consume another element) and return its raw result. A `none`
(non-zero exit status) from nmap is returned as-is: Python's
`confirm_with_arp and count is 0` is false when `count` is `False`.
Returns (result, next cursor, trace). -/
def count_devices_present (scans : Nat → Option Nat) (i : Nat)
    (confirm_with_arp : Bool) : Option Nat × Nat × List Ev :=
  match scans i with
  | none => (none, i + 1, [])
  | some 0 =>
      if confirm_with_arp then (scans (i + 1), i + 2, [.sleep 1])
      else (some 0, i + 1, [])
  | some (n + 1) => (some (n + 1), i + 1, [])

/-- The body of `confirm_device_count_is_zero`'s `for x in range(3)` loop,
recursing on the remaining iteration count. Python's `if test is not 0:
return False` aborts on anything other than a genuine zero — including the
`False` returned by a failed scan; otherwise it sleeps 5 seconds and
continues. -/
def confirmLoop (scans : Nat → Option Nat) : Nat → Nat → Bool × Nat × List Ev
  | 0, i => (true, i, [])
  | k + 1, i =>
      let r := count_devices_present scans i true
      if r.1 = some 0 then
        let rest := confirmLoop scans k r.2.1
        (rest.1, rest.2.1, r.2.2 ++ Ev.sleep 5 :: rest.2.2)
      else (false, r.2.1, r.2.2)

/-- `confirm_device_count_is_zero()`: three confirmation samples. -/
def confirm_device_count_is_zero (scans : Nat → Option Nat) (i : Nat) :
    Bool × Nat × List Ev :=
  confirmLoop scans 3 i

/-- The `while device_count is False` retry loop at the top of `search`,
with explicit fuel (the Python loop is unbounded). -/
def find_count (scans : Nat → Option Nat) (confirm_with_arp : Bool) :
    Nat → Nat → Option (Nat × Nat × List Ev)
  | 0, _ => none
  | fuel + 1, i =>
      let r := count_devices_present scans i confirm_with_arp
      match r.1 with
      | some n => some (n, r.2.1, r.2.2)
      | none =>
          (find_count scans confirm_with_arp fuel r.2.1).map
            (fun s => (s.1, s.2.1, r.2.2 ++ s.2.2))

/-- One `search()` cycle. `st` is `current_state()` (`none` models the
Python `False` returned when no state file exists); `quiet` is the value of
`within_quiet_hours()` during this cycle. Returns the persisted state after
the cycle and the event trace, or `none` if the initial-count retry loop ran
out of fuel. -/
def search (scans : Nat → Option Nat) (quiet : Bool) (st : Option PState)
    (fuel : Nat) : Option (PState × List Ev) :=
  let confirm_with_arp : Bool :=
    match st with
    | some .home => true
    | none => true
    | some .away => false
  match find_count scans confirm_with_arp fuel 0 with
  | none => none
  | some res =>
      let dc := res.1
      let i := res.2.1
      let tr0 := res.2.2
      let state :=
        match st with
        | none => if dc = 0 then PState.away else PState.home
        | some s => s
      let trInit : List Ev :=
        match st with
        | none =>
            if dc = 0 then [Ev.save .away] else [Ev.save .home]
        | some _ => []
      if state = .home ∧ dc = 0 then
        let c := confirm_device_count_is_zero scans i
        if c.1 then
          some (.away, tr0 ++ trInit ++ Ev.sleep 10 :: c.2.2
                  ++ [Ev.save .away, Ev.onAway quiet])
        else
          some (.home, tr0 ++ trInit ++ Ev.sleep 10 :: c.2.2)
      else if state = .away ∧ 0 < dc then
        some (.home, tr0 ++ trInit ++ [Ev.save .home, Ev.onHome quiet])
      else
        some (state, tr0 ++ trInit)

/-- `within_quiet_hours()` as a pure function of the configured start/end
hours and the current hour. Both files share this logic; `lamplighter.py`
falls off the end of the function (Python returns `None`, falsy, used only
in boolean position) while `heartbeat.py` ends with an explicit
`return False` — both are modeled as `false`. -/
def within_quiet_hours (start end_ hour : Nat) : Bool :=
  if start = 0 ∧ end_ = 0 then false
  else if start < end_ ∧ start ≤ hour ∧ end_ > hour then true
  else if start > end_ ∧ (start ≤ hour ∨ end_ > hour) then true
  else false

end Lamplighter

namespace Heartbeat

/-- One row of the `state` sqlite table:
`(who varchar(32), state varchar(32), updated bigint)`. -/
structure StateRow where
  who : String
  state : String
  updated : Int
deriving DecidableEq, Repr

/-- `get_state(who)`: `SELECT state, updated FROM state WHERE who = :who`
and take the first fetched row (`state[0]`), or `False` (here `none`) when no
row matches. -/
def get_state (db : List StateRow) (who : String) : Option (String × Int) :=
  (db.find? (fun r => r.who == who)).map (fun r => (r.state, r.updated))

/-- `set_state(who, state)`: insert a fresh row when `get_state` finds
nothing, otherwise `UPDATE state SET state = :state, updated = :updated
WHERE who = :who` (which rewrites every row matching `who`). `now` is the
`int(time.time())` read at the call. -/
def set_state (db : List StateRow) (who state : String) (now : Int) :
    List StateRow :=
  match get_state db who with
  | none => db ++ [⟨who, state, now⟩]
  | some _ =>
      db.map (fun r =>
        if r.who == who then { r with state := state, updated := now } else r)

/-- `get_all_states()`: the rows of the state table whose `who` is among the
configured aliases (`WHERE who IN (...)`), in table order. -/
def get_all_states (db : List StateRow) (aliases : List String) :
    List StateRow :=
  db.filter (fun r => aliases.contains r.who)

/-- `get_last_heartbeats()`: for each heartbeat row `(who, ts)` with `who`
among the configured aliases, the pair `(who, now - ts)` — the SQL computes
the age `strftime('%s') - ts`. -/
def get_last_heartbeats (now : Int) (aliases : List String)
    (heartbeats : List (String × Int)) : List (String × Int) :=
  (heartbeats.filter (fun p => aliases.contains p.1)).map
    (fun p => (p.1, now - p.2))

/-- Lookup in the dict built by `{ row[0]: row[1] for row in heartbeats }`:
a later row with the same key overwrites an earlier one. -/
def dictLast : List (String × Int) → String → Option Int
  | [], _ => none
  | (k, v) :: rest, w =>
      match dictLast rest w with
      | some x => some x
      | none => if k == w then some v else none

/-- `who_is_home()`: the names whose dict entry (last heartbeat age) is
strictly below 2700 seconds. Only membership in this list is ever consumed
(`row["who"] in people_at_home`), so keys are not deduplicated here. -/
def who_is_home (heartbeats : List (String × Int)) : List String :=
  (heartbeats.map Prod.fst).filter
    (fun w =>
      match dictLast heartbeats w with
      | some age => decide (age < 2700)
      | none => false)

/-- The per-row body of the `for row in known_state` loop of
`observe_state_changes`, folded over the rows in order. Returns
(new_state rows, changes dict entries, set_state calls). Note the
departure branch records `('away', 'home')` — exactly what the source does
on line 166 — even though it writes `"away"` to the store. -/
def observeRows (people : List String) :
    List StateRow →
      List StateRow × List (String × String × String) × List (String × String)
  | [] => ([], [], [])
  | row :: rest =>
      let prev := observeRows people rest
      if row.state = "away" ∧ row.who ∈ people then
        ({ row with state := "home" } :: prev.1,
         (row.who, "away", "home") :: prev.2.1,
         (row.who, "home") :: prev.2.2)
      else if row.state = "home" ∧ row.who ∉ people then
        ({ row with state := "away" } :: prev.1,
         (row.who, "away", "home") :: prev.2.1,
         (row.who, "away") :: prev.2.2)
      else (row :: prev.1, prev.2.1, prev.2.2)

/-- `get_combined_state(states)`: `"away"` when every row's state is
`"away"` (vacuously so for no rows), else `"home"`. -/
def get_combined_state (states : List StateRow) : String :=
  if states.all (fun r => r.state == "away") then "away" else "home"

/-- Result of one `observe_state_changes()` call: the combined state of the
old rows, the combined state of the updated rows, the `changes` dict as an
insertion-ordered list of `(alias, (old, new))`, and the `set_state` writes
performed. -/
structure ObserveResult where
  oldCombined : String
  newCombined : String
  changes : List (String × String × String)
  writes : List (String × String)
  newState : List StateRow
deriving DecidableEq, Repr

/-- `observe_state_changes()` for one polling cycle, with the heartbeat
presence snapshot `people` (= `who_is_home()`) and the recorded states
`known` (= `get_all_states()`) passed in. -/
def observe_state_changes (people : List String) (known : List StateRow) :
    ObserveResult :=
  let r := observeRows people known
  ⟨get_combined_state known, get_combined_state r.1, r.2.1, r.2.2, r.1⟩

/-- Callback invocations of one cycle of `run()`. -/
inductive HEv where
  | onHome (quiet : Bool) (who : String)
  | onAway (quiet : Bool) (who : String)
  | onFirstHome (quiet : Bool) (changes : List (String × String × String))
  | onLastAway (quiet : Bool) (changes : List (String × String × String))
deriving DecidableEq, Repr

/-- The callback dispatch of one iteration of `run()`'s `while True` loop:
combined-state transitions fire `on_last_away` / `on_first_home`; otherwise
each changed subject fires `on_away` or `on_home` according to the *second*
component of its `changes` tuple. -/
def dispatch (quiet : Bool) (oldC newC : String)
    (changes : List (String × String × String)) : List HEv :=
  if oldC ≠ newC then
    if newC = "away" then [.onLastAway quiet changes]
    else if newC = "home" then [.onFirstHome quiet changes]
    else []
  else if changes ≠ [] then
    changes.filterMap (fun c =>
      if c.2.2 = "away" then some (.onAway quiet c.1)
      else if c.2.2 = "home" then some (.onHome quiet c.1)
      else none)
  else []

/-- One polling cycle of `run()`: observe, then dispatch callbacks. -/
def runCycleEvents (quiet : Bool) (people : List String)
    (known : List StateRow) : List HEv :=
  let r := observe_state_changes people known
  dispatch quiet r.oldCombined r.newCombined r.changes

end Heartbeat

/-- C5: the quiet-hours predicate, as a pure function of the current hour
and the configured start and end hours, returns false for every hour when
start = end = 0; true iff start ≤ hour < end when start < end; true iff
hour ≥ start or hour < end when start > end; and false for every hour when
start = end ≠ 0. With start = 22, end = 6 it is true at hours 23 and 2 and
false at hour 12. -/
theorem C5_within_quiet_hours_cases :
    (∀ hour, Lamplighter.within_quiet_hours 0 0 hour = false)
    ∧ (∀ start end_ hour, start < end_ →
        (Lamplighter.within_quiet_hours start end_ hour = true ↔
          start ≤ hour ∧ hour < end_))
    ∧ (∀ start end_ hour, end_ < start →
        (Lamplighter.within_quiet_hours start end_ hour = true ↔
          start ≤ hour ∨ hour < end_))
    ∧ (∀ start hour, start ≠ 0 →
        Lamplighter.within_quiet_hours start start hour = false)
    ∧ Lamplighter.within_quiet_hours 22 6 23 = true
    ∧ Lamplighter.within_quiet_hours 22 6 2 = true
    ∧ Lamplighter.within_quiet_hours 22 6 12 = false := by
  refine ⟨?_, ?_, ?_, ?_, by decide, by decide, by decide⟩
  · intro hour
    simp [Lamplighter.within_quiet_hours]
  · intro start end_ hour hlt
    simp only [Lamplighter.within_quiet_hours]
    repeat' split
    all_goals simp_all
    all_goals omega
  · intro start end_ hour hlt
    simp only [Lamplighter.within_quiet_hours]
    repeat' split
    all_goals simp_all
  · intro start hour hne
    simp only [Lamplighter.within_quiet_hours]
    repeat' split
    all_goals simp_all

/-- Witness for C5 at concrete hours. -/
theorem C5_witness :
    Lamplighter.within_quiet_hours 0 0 12 = false
    ∧ (Lamplighter.within_quiet_hours 9 17 12 = true ↔ 9 ≤ 12 ∧ 12 < 17)
    ∧ (Lamplighter.within_quiet_hours 22 6 23 = true ↔ 22 ≤ 23 ∨ 23 < 6)
    ∧ Lamplighter.within_quiet_hours 7 7 3 = false :=
  ⟨C5_within_quiet_hours_cases.1 12,
   C5_within_quiet_hours_cases.2.1 9 17 12 (by decide),
   C5_within_quiet_hours_cases.2.2.1 22 6 23 (by decide),
   C5_within_quiet_hours_cases.2.2.2.1 7 3 (by decide)⟩

/-- C7: the derived combined state is home if at least one subject's state
is home, and away if every subject's state is away; over {A home, B away}
it is home and over {A away, B away} it is away. -/
theorem C7_combined_state (states : List Heartbeat.StateRow) :
    ((∃ r ∈ states, r.state = "home") →
      Heartbeat.get_combined_state states = "home")
    ∧ ((∀ r ∈ states, r.state = "away") →
      Heartbeat.get_combined_state states = "away")
    ∧ Heartbeat.get_combined_state
        [⟨"A", "home", 0⟩, ⟨"B", "away", 0⟩] = "home"
    ∧ Heartbeat.get_combined_state
        [⟨"A", "away", 0⟩, ⟨"B", "away", 0⟩] = "away" := by
  refine ⟨?_, ?_, by decide, by decide⟩
  · rintro ⟨r, hr, hs⟩
    rw [Heartbeat.get_combined_state, if_neg]
    intro hall
    rw [List.all_eq_true] at hall
    have := hall r hr
    rw [hs] at this
    exact absurd this (by decide)
  · intro h
    rw [Heartbeat.get_combined_state, if_pos]
    rw [List.all_eq_true]
    intro r hr
    simpa using h r hr

theorem dictLast_eq_none_iff (l : List (String × Int)) (w : String) :
    Heartbeat.dictLast l w = none ↔ w ∉ l.map Prod.fst := by
  induction l with
  | nil => simp [Heartbeat.dictLast]
  | cons p rest ih =>
    obtain ⟨k, v⟩ := p
    simp only [Heartbeat.dictLast, List.map_cons, List.mem_cons]
    cases h : Heartbeat.dictLast rest w with
    | some x =>
      have hmem : w ∈ rest.map Prod.fst := by
        by_contra hw
        rw [← ih] at hw
        rw [hw] at h
        exact Option.noConfusion h
      simp [hmem]
    | none =>
      have hw : w ∉ rest.map Prod.fst := ih.mp h
      by_cases hk : k == w
      · have hkw : k = w := by simpa using hk
        simp [hk, hkw]
      · have hne : ¬ w = k := fun e => hk (by simp [e])
        simp [hk, hne, hw]

theorem dictLast_of_mem_nodup (l : List (String × Int))
    (hnd : (l.map Prod.fst).Nodup) {w : String} {v : Int} (h : (w, v) ∈ l) :
    Heartbeat.dictLast l w = some v := by
  induction l with
  | nil => simp at h
  | cons p rest ih =>
    obtain ⟨k, u⟩ := p
    rw [List.map_cons, List.nodup_cons] at hnd
    obtain ⟨hk, hnd'⟩ := hnd
    rcases List.mem_cons.mp h with he | hm
    · simp only [Prod.mk.injEq] at he
      obtain ⟨rfl, rfl⟩ := he
      have hn : Heartbeat.dictLast rest w = none :=
        (dictLast_eq_none_iff rest w).mpr hk
      simp [Heartbeat.dictLast, hn]
    · have := ih hnd' hm
      simp [Heartbeat.dictLast, this]

theorem who_is_home_mem_iff (hb : List (String × Int)) (w : String) :
    w ∈ Heartbeat.who_is_home hb ↔
      ∃ a, Heartbeat.dictLast hb w = some a ∧ a < 2700 := by
  unfold Heartbeat.who_is_home
  rw [List.mem_filter]
  constructor
  · rintro ⟨hmem, hp⟩
    cases h : Heartbeat.dictLast hb w with
    | none => rw [h] at hp; simp at hp
    | some a =>
      rw [h] at hp
      simp only [decide_eq_true_eq] at hp
      exact ⟨a, rfl, hp⟩
  · rintro ⟨a, h, hlt⟩
    refine ⟨?_, ?_⟩
    · by_contra hmem
      rw [← dictLast_eq_none_iff] at hmem
      rw [hmem] at h
      exact Option.noConfusion h
    · rw [h]
      simpa using hlt

theorem get_last_heartbeats_keys (now : Int) (aliases : List String)
    (rows : List (String × Int)) :
    (Heartbeat.get_last_heartbeats now aliases rows).map Prod.fst =
      (rows.filter (fun p => aliases.contains p.1)).map Prod.fst := by
  simp [Heartbeat.get_last_heartbeats, List.map_map]

theorem dictLast_get_last_heartbeats (now : Int) (aliases : List String)
    (rows : List (String × Int)) (hnd : (rows.map Prod.fst).Nodup)
    (w : String) (ts : Int) (hmem : (w, ts) ∈ rows) (ha : w ∈ aliases) :
    Heartbeat.dictLast (Heartbeat.get_last_heartbeats now aliases rows) w =
      some (now - ts) := by
  apply dictLast_of_mem_nodup
  · rw [get_last_heartbeats_keys]
    exact hnd.sublist ((List.filter_sublist rows).map Prod.fst)
  · apply List.mem_map.mpr
    refine ⟨(w, ts), ?_, rfl⟩
    rw [List.mem_filter]
    exact ⟨hmem, by simpa using ha⟩

/-- C6: in the heartbeat variant a subject is present iff the age of its
most recent heartbeat, `now - last_seen_timestamp`, is strictly below 2700
seconds; a subject with no heartbeat row at all is treated as away. -/
theorem C6_heartbeat_presence_threshold (now : Int) (aliases : List String)
    (rows : List (String × Int)) (hnd : (rows.map Prod.fst).Nodup)
    (w : String) (ts : Int) :
    ((w, ts) ∈ rows → w ∈ aliases →
      (w ∈ Heartbeat.who_is_home (Heartbeat.get_last_heartbeats now aliases rows)
        ↔ now - ts < 2700))
    ∧ ((∀ a : Int, (w, a) ∉ rows) →
      w ∉ Heartbeat.who_is_home
        (Heartbeat.get_last_heartbeats now aliases rows)) := by
  constructor
  · intro hmem ha
    rw [who_is_home_mem_iff]
    have hd := dictLast_get_last_heartbeats now aliases rows hnd w ts hmem ha
    constructor
    · rintro ⟨a, h, hlt⟩
      rw [hd] at h
      have : now - ts = a := Option.some.inj h
      omega
    · intro hlt
      exact ⟨now - ts, hd, hlt⟩
  · intro hnone
    rw [who_is_home_mem_iff]
    rintro ⟨a, h, _⟩
    have hk : w ∈ (Heartbeat.get_last_heartbeats now aliases rows).map Prod.fst := by
      by_contra hk
      rw [← dictLast_eq_none_iff] at hk
      rw [hk] at h
      exact Option.noConfusion h
    rw [get_last_heartbeats_keys] at hk
    obtain ⟨p, hp, hfst⟩ := List.mem_map.mp hk
    obtain ⟨k, v⟩ := p
    dsimp at hfst
    subst hfst
    exact hnone v (List.mem_filter.mp hp).1

/-- Witness for C6: with `now = 10000`, a subject whose heartbeat timestamp
is 8000 (age 2000 < 2700) is present, and a subject with no row is away. -/
theorem C6_witness :
    ("a" ∈ Heartbeat.who_is_home
        (Heartbeat.get_last_heartbeats 10000 ["a"] [("a", 8000)])
      ↔ (10000 : Int) - 8000 < 2700)
    ∧ "z" ∉ Heartbeat.who_is_home
        (Heartbeat.get_last_heartbeats 10000 ["a"] [("a", 8000)]) := by
  constructor
  · exact (C6_heartbeat_presence_threshold 10000 ["a"] [("a", 8000)]
      (by decide) "a" 8000).1 (by simp) (by simp)
  · refine (C6_heartbeat_presence_threshold 10000 ["a"] [("a", 8000)]
      (by decide) "z" 0).2 ?_
    intro a h
    rw [List.mem_singleton] at h
    have : "z" = "a" := congrArg Prod.fst h
    exact absurd this (by decide)

theorem find?_set_map (db : List Heartbeat.StateRow) (who s : String)
    (now : Int) :
    (db.map (fun r =>
        if r.who == who then { r with state := s, updated := now } else r)).find?
        (fun r => r.who == who)
      = (db.find? (fun r => r.who == who)).map
          (fun r => { r with state := s, updated := now }) := by
  induction db with
  | nil => rfl
  | cons r rest ih =>
    by_cases h : r.who == who
    · simp [List.find?, h]
    · have hb : (r.who == who) = false := by simpa using h
      simp only [List.map_cons, List.find?, if_neg h]
      simp only [hb]
      exact ih

theorem get_state_after_set (db : List Heartbeat.StateRow) (who s : String)
    (now : Int) :
    Heartbeat.get_state (Heartbeat.set_state db who s now) who =
      some (s, now) := by
  cases h : Heartbeat.get_state db who with
  | none =>
    have hf : db.find? (fun r => r.who == who) = none := by
      unfold Heartbeat.get_state at h
      exact Option.map_eq_none'.mp h
    simp only [Heartbeat.set_state, h]
    simp [Heartbeat.get_state, List.find?_append, hf, List.find?]
  | some p =>
    simp only [Heartbeat.set_state, h]
    unfold Heartbeat.get_state at h ⊢
    rw [find?_set_map]
    cases hf : db.find? (fun r => r.who == who) with
    | none => rw [hf] at h; simp at h
    | some r => simp

theorem countP_set_state_le (db : List Heartbeat.StateRow) (who s : String)
    (now : Int) (w : String)
    (h : db.countP (fun r => r.who == w) ≤ 1) :
    (Heartbeat.set_state db who s now).countP (fun r => r.who == w) ≤ 1 := by
  cases hg : Heartbeat.get_state db who with
  | some p =>
    simp only [Heartbeat.set_state, hg]
    rw [List.countP_map]
    have heq : db.countP
        ((fun r => r.who == w) ∘ (fun r =>
          if r.who == who then { r with state := s, updated := now } else r))
        = db.countP (fun r => r.who == w) := by
      apply List.countP_congr
      intro r _
      by_cases hr : r.who == who <;> simp [Function.comp, hr]
    rw [heq]
    exact h
  | none =>
    have hf : ∀ r ∈ db, ¬ (r.who == who) = true := by
      unfold Heartbeat.get_state at hg
      exact List.find?_eq_none.mp (Option.map_eq_none'.mp hg)
    simp only [Heartbeat.set_state, hg]
    rw [List.countP_append]
    by_cases hw : who == w
    · have hww : who = w := by simpa using hw
      have hz : db.countP (fun r => r.who == w) = 0 := by
        rw [List.countP_eq_zero]
        intro r hr
        rw [← hww]
        exact hf r hr
      subst hww
      simp [hz, List.countP_cons]
    · have hne : ¬ w = who := fun e => hw (by simp [e])
      simp only [List.countP_cons, List.countP_nil,
        show ((⟨who, s, now⟩ : Heartbeat.StateRow).who == w) = false by
          simpa using fun e => hne e.symm]
      simpa using h

theorem countP_foldl_set_state (ops : List (String × String × Int))
    (db : List Heartbeat.StateRow)
    (h : ∀ w, db.countP (fun r => r.who == w) ≤ 1) :
    ∀ w, ((ops.foldl (fun d o => Heartbeat.set_state d o.1 o.2.1 o.2.2)
        db).countP (fun r => r.who == w)) ≤ 1 := by
  induction ops generalizing db with
  | nil => simpa using h
  | cons o rest ih =>
    intro w
    exact ih _ (fun w' => countP_set_state_le _ _ _ _ _ (h w')) w

/-- C8: the store's set operation is an idempotent upsert: starting from an
empty table, any sequence of set calls leaves at most one row per subject,
and setting a subject to the state it already has leaves the stored state
value unchanged while refreshing its updated timestamp. -/
theorem C8_set_state_idempotent_upsert :
    (∀ (ops : List (String × String × Int)) (w : String),
      ((ops.foldl (fun db o => Heartbeat.set_state db o.1 o.2.1 o.2.2)
          []).countP (fun r => r.who == w)) ≤ 1)
    ∧ (∀ (db : List Heartbeat.StateRow) (who s : String) (t now : Int),
        Heartbeat.get_state db who = some (s, t) →
        Heartbeat.get_state (Heartbeat.set_state db who s now) who =
          some (s, now)) := by
  constructor
  · intro ops w
    exact countP_foldl_set_state ops [] (fun _ => by simp) w
  · intro db who s t now _
    exact get_state_after_set db who s now

/-- Witness for C8: a duplicate-free table and a same-state write that only
bumps the timestamp. -/
theorem C8_witness :
    ((([("a", "home", (5 : Int)), ("a", "home", 6), ("b", "away", 7)] :
        List (String × String × Int)).foldl
        (fun db o => Heartbeat.set_state db o.1 o.2.1 o.2.2)
        []).countP (fun r => r.who == "a")) ≤ 1
    ∧ Heartbeat.get_state
        (Heartbeat.set_state [⟨"a", "home", 5⟩] "a" "home" 9) "a" =
        some ("home", 9) :=
  ⟨C8_set_state_idempotent_upsert.1 [("a", "home", 5), ("a", "home", 6), ("b", "away", 7)] "a",
   C8_set_state_idempotent_upsert.2 [⟨"a", "home", 5⟩] "a" "home" 5 9 (by decide)⟩

/-- C9 (counterexample): updated_at does not strictly increase on every
write — two consecutive writes of the same state whose `int(time.time())`
reads fall in the same second store equal timestamps. Concretely, writing
("a", "home") twice at clock value 100 reads back updated = 100 both
times. -/
theorem C9_counterexample :
    ¬ (∀ (db : List Heartbeat.StateRow) (who s : String) (now : Int)
          (p q : String × Int),
        Heartbeat.get_state db who = some p →
        Heartbeat.get_state (Heartbeat.set_state db who s now) who = some q →
        p.2 < q.2) := by
  intro h
  have h1 : Heartbeat.get_state (Heartbeat.set_state [] "a" "home" 100) "a" =
      some ("home", 100) := by decide
  have h2 : Heartbeat.get_state
      (Heartbeat.set_state (Heartbeat.set_state [] "a" "home" 100)
        "a" "home" 100) "a" = some ("home", 100) := by decide
  have := h (Heartbeat.set_state [] "a" "home" 100) "a" "home" 100
      ("home", 100) ("home", 100) h1 h2
  exact absurd this (by decide)

/-- C9 (amended): every write stamps the row with the clock value
`int(time.time())` read at the write — also when the state is unchanged —
so updated_at strictly increases across successive writes to a subject
exactly when the whole-second clock strictly increased between them; writes
within the same second leave it equal. -/
theorem C9_updated_tracks_clock (db : List Heartbeat.StateRow)
    (who s : String) (now : Int) :
    (Heartbeat.get_state (Heartbeat.set_state db who s now) who =
      some (s, now))
    ∧ (∀ p, Heartbeat.get_state db who = some p → p.2 < now →
        ∀ q, Heartbeat.get_state (Heartbeat.set_state db who s now) who =
            some q → p.2 < q.2) := by
  refine ⟨get_state_after_set db who s now, ?_⟩
  intro p _ hlt q hq
  rw [get_state_after_set db who s now] at hq
  have hqe : (s, now) = q := Option.some.inj hq
  rw [← hqe]
  exact hlt

/-- Witness for C9's amended statement: a write one second later strictly
bumps the timestamp. -/
theorem C9_witness :
    Heartbeat.get_state
        (Heartbeat.set_state [⟨"a", "home", 100⟩] "a" "home" 101) "a" =
      some ("home", 101)
    ∧ (("home", (100 : Int)).2 < (("home", (101 : Int)) : String × Int).2) :=
  ⟨(C9_updated_tracks_clock [⟨"a", "home", 100⟩] "a" "home" 101).1,
   (C9_updated_tracks_clock [⟨"a", "home", 100⟩] "a" "home" 101).2
     ("home", 100) (by decide) (by decide) ("home", 101) (by decide)⟩

/-- Witness for C7 at concrete subject sets. -/
theorem C7_witness :
    Heartbeat.get_combined_state [⟨"A", "home", 0⟩, ⟨"B", "away", 0⟩] = "home"
    ∧ Heartbeat.get_combined_state
        [⟨"A", "away", 0⟩, ⟨"B", "away", 0⟩] = "away" :=
  ⟨(C7_combined_state [⟨"A", "home", 0⟩, ⟨"B", "away", 0⟩]).1 (by decide),
   (C7_combined_state [⟨"A", "away", 0⟩, ⟨"B", "away", 0⟩]).2.1 (by decide)⟩

/-- The subject of a per-subject callback event, if any. -/
def hevSubject : Heartbeat.HEv → Option String
  | .onAway _ w => some w
  | .onHome _ w => some w
  | .onFirstHome _ _ => none
  | .onLastAway _ _ => none

theorem dispatch_subject_mem (quiet : Bool) (oldC newC : String)
    (changes : List (String × String × String)) :
    ∀ e ∈ Heartbeat.dispatch quiet oldC newC changes, ∀ w,
      hevSubject e = some w → w ∈ changes.map Prod.fst := by
  intro e he w hw
  unfold Heartbeat.dispatch at he
  split at he
  · split at he
    · rw [List.mem_singleton] at he
      subst he
      simp [hevSubject] at hw
    · split at he
      · rw [List.mem_singleton] at he
        subst he
        simp [hevSubject] at hw
      · simp at he
  · split at he
    · rw [List.mem_filterMap] at he
      obtain ⟨c, hc, hf⟩ := he
      by_cases hA : c.2.2 = "away"
      · rw [if_pos hA] at hf
        obtain rfl := Option.some.inj hf
        simp only [hevSubject] at hw
        obtain rfl := Option.some.inj hw
        exact List.mem_map.mpr ⟨c, hc, rfl⟩
      · rw [if_neg hA] at hf
        by_cases hH : c.2.2 = "home"
        · rw [if_pos hH] at hf
          obtain rfl := Option.some.inj hf
          simp only [hevSubject] at hw
          obtain rfl := Option.some.inj hw
          exact List.mem_map.mpr ⟨c, hc, rfl⟩
        · rw [if_neg hH] at hf
          exact Option.noConfusion hf
    · simp at he

theorem observeRows_avoid (people : List String)
    (known : List Heartbeat.StateRow) (w : String)
    (h : ∀ r ∈ known, r.who ≠ w) :
    (∀ r ∈ (Heartbeat.observeRows people known).1, r.who ≠ w)
    ∧ (∀ c ∈ (Heartbeat.observeRows people known).2.1, c.1 ≠ w)
    ∧ (∀ p ∈ (Heartbeat.observeRows people known).2.2, p.1 ≠ w) := by
  induction known with
  | nil => simp [Heartbeat.observeRows]
  | cons row rest ih =>
    have hrow : row.who ≠ w := h row (List.mem_cons_self _ _)
    obtain ⟨ih1, ih2, ih3⟩ := ih (fun r hr => h r (List.mem_cons_of_mem _ hr))
    simp only [Heartbeat.observeRows]
    by_cases h1 : row.state = "away" ∧ row.who ∈ people
    · simp only [if_pos h1]
      refine ⟨?_, ?_, ?_⟩ <;> intro x hx <;>
        rcases List.mem_cons.mp hx with rfl | hm
      · exact hrow
      · exact ih1 x hm
      · exact hrow
      · exact ih2 x hm
      · exact hrow
      · exact ih3 x hm
    · simp only [if_neg h1]
      by_cases h2 : row.state = "home" ∧ row.who ∉ people
      · simp only [if_pos h2]
        refine ⟨?_, ?_, ?_⟩ <;> intro x hx <;>
          rcases List.mem_cons.mp hx with rfl | hm
        · exact hrow
        · exact ih1 x hm
        · exact hrow
        · exact ih2 x hm
        · exact hrow
        · exact ih3 x hm
      · simp only [if_neg h2]
        refine ⟨?_, ih2, ih3⟩
        intro x hx
        rcases List.mem_cons.mp hx with rfl | hm
        · exact hrow
        · exact ih1 x hm

/-- C10 (implicit): a configured subject with no existing state record is
silently skipped every polling cycle: it appears in no change, no write and
no updated row, it triggers no per-subject callback, and the combined state
over the empty record set is away. -/
theorem C10_unrecorded_subject_skipped (table : List Heartbeat.StateRow)
    (aliases people : List String) (quiet : Bool) (w : String)
    (hw : w ∉ table.map Heartbeat.StateRow.who) :
    (∀ c ∈ (Heartbeat.observe_state_changes people
        (Heartbeat.get_all_states table aliases)).changes, c.1 ≠ w)
    ∧ (∀ p ∈ (Heartbeat.observe_state_changes people
        (Heartbeat.get_all_states table aliases)).writes, p.1 ≠ w)
    ∧ (∀ r ∈ (Heartbeat.observe_state_changes people
        (Heartbeat.get_all_states table aliases)).newState, r.who ≠ w)
    ∧ (∀ q : Bool,
        Heartbeat.HEv.onAway q w ∉
          Heartbeat.runCycleEvents quiet people
            (Heartbeat.get_all_states table aliases)
        ∧ Heartbeat.HEv.onHome q w ∉
          Heartbeat.runCycleEvents quiet people
            (Heartbeat.get_all_states table aliases))
    ∧ Heartbeat.get_combined_state [] = "away" := by
  have hknown : ∀ r ∈ Heartbeat.get_all_states table aliases, r.who ≠ w := by
    intro r hr
    have : r ∈ table := (List.mem_filter.mp hr).1
    intro he
    exact hw (List.mem_map.mpr ⟨r, this, he⟩)
  obtain ⟨h1, h2, h3⟩ :=
    observeRows_avoid people (Heartbeat.get_all_states table aliases) w hknown
  refine ⟨h2, h3, h1, ?_, by decide⟩
  intro q
  constructor <;> intro hmem
  · have := dispatch_subject_mem quiet _ _ _ _ hmem w rfl
    obtain ⟨c, hc, hcw⟩ := List.mem_map.mp this
    exact h2 c hc hcw
  · have := dispatch_subject_mem quiet _ _ _ _ hmem w rfl
    obtain ⟨c, hc, hcw⟩ := List.mem_map.mp this
    exact h2 c hc hcw

/-- Witness for C10: subject "a" is configured but has no record in a table
holding only "b". -/
theorem C10_witness :
    (∀ c ∈ (Heartbeat.observe_state_changes []
        (Heartbeat.get_all_states [⟨"b", "home", 0⟩] ["a", "b"])).changes,
      c.1 ≠ "a")
    ∧ (∀ p ∈ (Heartbeat.observe_state_changes []
        (Heartbeat.get_all_states [⟨"b", "home", 0⟩] ["a", "b"])).writes,
      p.1 ≠ "a")
    ∧ (∀ r ∈ (Heartbeat.observe_state_changes []
        (Heartbeat.get_all_states [⟨"b", "home", 0⟩] ["a", "b"])).newState,
      r.who ≠ "a")
    ∧ (∀ q : Bool,
        Heartbeat.HEv.onAway q "a" ∉
          Heartbeat.runCycleEvents false []
            (Heartbeat.get_all_states [⟨"b", "home", 0⟩] ["a", "b"])
        ∧ Heartbeat.HEv.onHome q "a" ∉
          Heartbeat.runCycleEvents false []
            (Heartbeat.get_all_states [⟨"b", "home", 0⟩] ["a", "b"]))
    ∧ Heartbeat.get_combined_state [] = "away" :=
  C10_unrecorded_subject_skipped [⟨"b", "home", 0⟩] ["a", "b"] [] false "a"
    (by decide)

theorem observeRows_away_to_home (people : List String)
    (known : List Heartbeat.StateRow) (row : Heartbeat.StateRow)
    (hmem : row ∈ known) (hst : row.state = "away")
    (hp : row.who ∈ people) :
    (row.who, "home") ∈ (Heartbeat.observeRows people known).2.2
    ∧ (row.who, "away", "home") ∈ (Heartbeat.observeRows people known).2.1 := by
  induction known with
  | nil => simp at hmem
  | cons r rest ih =>
    rcases List.mem_cons.mp hmem with rfl | hm
    · simp only [Heartbeat.observeRows, if_pos (And.intro hst hp)]
      exact ⟨List.mem_cons_self _ _, List.mem_cons_self _ _⟩
    · obtain ⟨ihw, ihc⟩ := ih hm
      simp only [Heartbeat.observeRows]
      by_cases h1 : r.state = "away" ∧ r.who ∈ people
      · simp only [if_pos h1]
        exact ⟨List.mem_cons_of_mem _ ihw, List.mem_cons_of_mem _ ihc⟩
      · simp only [if_neg h1]
        by_cases h2 : r.state = "home" ∧ r.who ∉ people
        · simp only [if_pos h2]
          exact ⟨List.mem_cons_of_mem _ ihw, List.mem_cons_of_mem _ ihc⟩
        · simp only [if_neg h2]
          exact ⟨ihw, ihc⟩

/-- C4: from a confirmed AWAY state, a single observation showing presence
transitions to HOME immediately, with no confirmation sampling and no
confirmation delay, in both variants. Scan variant: with state "away" the
very first genuine nonzero count makes `search` save "home" and fire
`on_home` — the whole trace is that save and callback, with no sleeps and no
further scans. Heartbeat variant: a recorded-away subject present in the
single per-cycle `who_is_home` snapshot is written back "home" in that same
cycle. -/
theorem C4_away_to_home_immediate :
    (∀ (scans : Nat → Option Nat) (quiet : Bool) (n fuel : Nat),
        scans 0 = some (n + 1) →
        Lamplighter.search scans quiet (some .away) (fuel + 1) =
          some (.home,
            [Lamplighter.Ev.save .home, Lamplighter.Ev.onHome quiet]))
    ∧ (∀ (people : List String) (known : List Heartbeat.StateRow)
          (row : Heartbeat.StateRow), row ∈ known → row.state = "away" →
        row.who ∈ people →
        ((row.who, "home") ∈
            (Heartbeat.observe_state_changes people known).writes
          ∧ (row.who, "away", "home") ∈
            (Heartbeat.observe_state_changes people known).changes)) := by
  constructor
  · intro scans quiet n fuel h
    simp [Lamplighter.search, Lamplighter.find_count,
      Lamplighter.count_devices_present, h]
  · intro people known row hmem hst hp
    have := observeRows_away_to_home people known row hmem hst hp
    simpa [Heartbeat.observe_state_changes] using this

/-- Witness for C4: a positive scan flips the scan variant home at once; a
fresh heartbeat flips a recorded-away subject home in one cycle. -/
theorem C4_witness :
    Lamplighter.search (fun _ => some 3) false (some .away) 1 =
      some (.home, [Lamplighter.Ev.save .home, Lamplighter.Ev.onHome false])
    ∧ (("a", "home") ∈
        (Heartbeat.observe_state_changes ["a"] [⟨"a", "away", 5⟩]).writes
      ∧ ("a", "away", "home") ∈
        (Heartbeat.observe_state_changes ["a"] [⟨"a", "away", 5⟩]).changes) :=
  ⟨C4_away_to_home_immediate.1 (fun _ => some 3) false 2 0 rfl,
   C4_away_to_home_immediate.2 ["a"] [⟨"a", "away", 5⟩] ⟨"a", "away", 5⟩
     (by simp) rfl (by simp)⟩

/-- C3: the claim fails on the code. With subjects a (recorded home, no
fresh heartbeat — goes away) and b (recorded home, fresh heartbeat — stays),
the combined state stays "home" while a's record changes home → away: the
departure branch of `observe_state_changes` records the change tuple as
`('away', 'home')` (line 166, a copy of the arrival branch), so the `run()`
dispatch reads its second component "home" and invokes `on_home` for a —
not `on_away` — even though a's row is written "away". -/
theorem C3_departure_invokes_on_home :
    Heartbeat.runCycleEvents false ["b"]
        [⟨"a", "home", 0⟩, ⟨"b", "home", 0⟩] =
      [Heartbeat.HEv.onHome false "a"]
    ∧ (Heartbeat.observe_state_changes ["b"]
        [⟨"a", "home", 0⟩, ⟨"b", "home", 0⟩]).writes = [("a", "away")]
    ∧ (Heartbeat.observe_state_changes ["b"]
        [⟨"a", "home", 0⟩, ⟨"b", "home", 0⟩]).oldCombined = "home"
    ∧ (Heartbeat.observe_state_changes ["b"]
        [⟨"a", "home", 0⟩, ⟨"b", "home", 0⟩]).newCombined = "home" := by
  refine ⟨?_, by decide, by decide, by decide⟩
  decide

/-- C2: the claim fails on the code. Stream: nmap 0, arp 0 (genuine initial
zero), then the first confirmation scan fails (`none`), and every later scan
returns a genuine 0 — so a retry-in-place confirmation, as the claim
describes, would have found three genuine zero samples and committed AWAY.
Instead `confirm_device_count_is_zero` hits Python's `test is not 0` with
`test = False`, returns False after consuming that single failed sample, and
`search` treats it as a false alarm: the state stays HOME and the
confirmation is aborted rather than the scan being retried. -/
theorem C2_scan_failure_aborts_confirmation :
    Lamplighter.confirm_device_count_is_zero
        (fun i => if i = 2 then none else some 0) 2 = (false, 3, [])
    ∧ Lamplighter.search (fun i => if i = 2 then none else some 0) false
        (some .home) 1 =
      some (.home, [Lamplighter.Ev.sleep 1, Lamplighter.Ev.sleep 10]) := by
  constructor
  · decide
  · decide

theorem cdp_trace_sleep (scans : Nat → Option Nat) (i : Nat) (c : Bool) :
    ∀ ev ∈ (Lamplighter.count_devices_present scans i c).2.2,
      ∃ m, ev = Lamplighter.Ev.sleep m := by
  intro ev hev
  unfold Lamplighter.count_devices_present at hev
  split at hev
  · simp at hev
  · split at hev
    · rw [show ((scans (i + 1), i + 2,
          [Lamplighter.Ev.sleep 1]) : Option Nat × Nat × List Lamplighter.Ev).2.2
          = [Lamplighter.Ev.sleep 1] from rfl] at hev
      rw [List.mem_singleton] at hev
      exact ⟨1, hev⟩
    · simp at hev
  · simp at hev

theorem confirmLoop_trace_sleep (scans : Nat → Option Nat) :
    ∀ k i, ∀ ev ∈ (Lamplighter.confirmLoop scans k i).2.2,
      ∃ m, ev = Lamplighter.Ev.sleep m := by
  intro k
  induction k with
  | zero =>
    intro i ev hev
    simp [Lamplighter.confirmLoop] at hev
  | succ k ih =>
    intro i ev hev
    simp only [Lamplighter.confirmLoop] at hev
    by_cases ht : (Lamplighter.count_devices_present scans i true).1 = some 0
    · rw [if_pos ht] at hev
      rcases List.mem_append.mp hev with hm | hm
      · exact cdp_trace_sleep scans i true ev hm
      · rcases List.mem_cons.mp hm with rfl | hm'
        · exact ⟨5, rfl⟩
        · exact ih _ ev hm'
    · rw [if_neg ht] at hev
      exact cdp_trace_sleep scans i true ev hev

theorem find_count_trace_sleep (scans : Nat → Option Nat) (c : Bool) :
    ∀ fuel i r, Lamplighter.find_count scans c fuel i = some r →
      ∀ ev ∈ r.2.2, ∃ m, ev = Lamplighter.Ev.sleep m := by
  intro fuel
  induction fuel with
  | zero =>
    intro i r h
    exact absurd h (by simp [Lamplighter.find_count])
  | succ fuel ih =>
    intro i r h ev hev
    simp only [Lamplighter.find_count] at h
    cases ht : (Lamplighter.count_devices_present scans i c).1 with
    | some n =>
      rw [ht] at h
      obtain rfl := Option.some.inj h
      exact cdp_trace_sleep scans i c ev hev
    | none =>
      rw [ht] at h
      rcases Option.map_eq_some'.mp h with ⟨r', hr', hf⟩
      subst hf
      rcases List.mem_append.mp hev with hm | hm
      · exact cdp_trace_sleep scans i c ev hm
      · exact ih _ r' hr' ev hm

theorem confirm_fst_iff (scans : Nat → Option Nat) (i : Nat) :
    (Lamplighter.confirm_device_count_is_zero scans i).1 = true ↔
      ((Lamplighter.count_devices_present scans i true).1 = some 0
       ∧ (Lamplighter.count_devices_present scans
            (Lamplighter.count_devices_present scans i true).2.1 true).1 =
          some 0
       ∧ (Lamplighter.count_devices_present scans
            (Lamplighter.count_devices_present scans
              (Lamplighter.count_devices_present scans i true).2.1 true).2.1
            true).1 = some 0) := by
  simp only [Lamplighter.confirm_device_count_is_zero, Lamplighter.confirmLoop]
  by_cases b1 : (Lamplighter.count_devices_present scans i true).1 = some 0
  · simp only [if_pos b1]
    by_cases b2 : (Lamplighter.count_devices_present scans
        (Lamplighter.count_devices_present scans i true).2.1 true).1 = some 0
    · simp only [if_pos b2]
      by_cases b3 : (Lamplighter.count_devices_present scans
          (Lamplighter.count_devices_present scans
            (Lamplighter.count_devices_present scans i true).2.1 true).2.1
          true).1 = some 0
      · simp [b1, b2, b3]
      · simp [b1, b2, b3]
    · simp [b1, b2]
  · simp [b1]

/-- C1: in the scan variant, from confirmed HOME with an initial observation
of zero devices, the AWAY transition is committed only after the 10-second
wait and 3 confirmation samples that are all genuine zeros (the trace shows
`sleep 10` followed by the confirmation trace before the save and callback);
if confirmation fails — any of the 3 samples showing presence — the state
stays HOME and the cycle's trace holds no save and no callback at all (no
partial state), e.g. the sample sequence negative, positive, … leaves HOME.
The commit condition is exactly: the three successive
`count_devices_present` results from cursor `i` all equal `some 0`. -/
theorem C1_home_to_away_needs_confirmation
    (scans : Nat → Option Nat) (quiet : Bool) (fuel i : Nat)
    (tr0 : List Lamplighter.Ev)
    (h : Lamplighter.find_count scans true fuel 0 = some (0, i, tr0))
    (ok : Bool) (i' : Nat) (trC : List Lamplighter.Ev)
    (hc : Lamplighter.confirm_device_count_is_zero scans i = (ok, i', trC)) :
    (ok = true →
      Lamplighter.search scans quiet (some .home) fuel =
        some (.away, tr0 ++ Lamplighter.Ev.sleep 10 ::
          (trC ++ [Lamplighter.Ev.save .away, Lamplighter.Ev.onAway quiet])))
    ∧ (ok = false →
        Lamplighter.search scans quiet (some .home) fuel =
          some (.home, tr0 ++ Lamplighter.Ev.sleep 10 :: trC)
        ∧ (∀ s, Lamplighter.Ev.save s ∉
            tr0 ++ Lamplighter.Ev.sleep 10 :: trC)
        ∧ (∀ b, Lamplighter.Ev.onAway b ∉
            tr0 ++ Lamplighter.Ev.sleep 10 :: trC)
        ∧ (∀ b, Lamplighter.Ev.onHome b ∉
            tr0 ++ Lamplighter.Ev.sleep 10 :: trC))
    ∧ (ok = true ↔
        ((Lamplighter.count_devices_present scans i true).1 = some 0
         ∧ (Lamplighter.count_devices_present scans
              (Lamplighter.count_devices_present scans i true).2.1 true).1 =
            some 0
         ∧ (Lamplighter.count_devices_present scans
              (Lamplighter.count_devices_present scans
                (Lamplighter.count_devices_present scans i true).2.1
                true).2.1 true).1 = some 0)) := by
  have htr0 : ∀ ev ∈ tr0, ∃ m, ev = Lamplighter.Ev.sleep m := by
    have := find_count_trace_sleep scans true fuel 0 (0, i, tr0) h
    simpa using this
  refine ⟨?_, ?_, ?_⟩
  · intro hok
    subst hok
    simp [Lamplighter.search, h, hc]
  · intro hok
    subst hok
    have htrC : ∀ ev ∈ trC, ∃ m, ev = Lamplighter.Ev.sleep m := by
      have := confirmLoop_trace_sleep scans 3 i
      rw [show Lamplighter.confirmLoop scans 3 i = (false, i', trC) from hc]
        at this
      simpa using this
    have hall : ∀ ev ∈ tr0 ++ Lamplighter.Ev.sleep 10 :: trC,
        ∃ m, ev = Lamplighter.Ev.sleep m := by
      intro ev hmem
      rcases List.mem_append.mp hmem with hm | hm
      · exact htr0 _ hm
      · rcases List.mem_cons.mp hm with rfl | hm'
        · exact ⟨10, rfl⟩
        · exact htrC _ hm'
    refine ⟨by simp [Lamplighter.search, h, hc], ?_, ?_, ?_⟩
    · intro s hmem
      obtain ⟨m, hms⟩ := hall _ hmem
      exact Lamplighter.Ev.noConfusion hms
    · intro b hmem
      obtain ⟨m, hms⟩ := hall _ hmem
      exact Lamplighter.Ev.noConfusion hms
    · intro b hmem
      obtain ⟨m, hms⟩ := hall _ hmem
      exact Lamplighter.Ev.noConfusion hms
  · have hiff := confirm_fst_iff scans i
    rw [hc] at hiff
    simpa using hiff

/-- Witness for C1: the spec's own counter-sequence — initial sample
negative (nmap 0 then arp 0), first confirmation sample positive — aborts
and leaves the persisted state HOME, the trace holding only the sleeps. -/
theorem C1_witness :
    Lamplighter.search (fun j => if j = 2 then some 2 else some 0) false
        (some Lamplighter.PState.home) 1 =
      some (Lamplighter.PState.home,
        [Lamplighter.Ev.sleep 1, Lamplighter.Ev.sleep 10]) := by
  have h := (C1_home_to_away_needs_confirmation
      (fun j => if j = 2 then some 2 else some 0) false 1 2
      [Lamplighter.Ev.sleep 1] (by decide) false 3 [] (by decide)).2.1 rfl
  simpa using h.1
